import Mathlib

/-!
Verification of the advanced-vector repository (src/vector.h): a shallow
embedding of `RawMemory<T>` and `Vector<T>` and proofs of the specified
properties.

Modelling choices:
* A raw buffer of `capacity` slots is a `List (Option α)` of that length;
  `some x` means the slot holds a constructed object with value `x`,
  `none` means the slot is uninitialized (no constructed object).
* `RawMemory` itself (for the move-transfer claims) is modelled by its two
  fields: an abstract address (`Nat`, with `0` playing the role of
  `nullptr`) and a capacity.
* Each standard algorithm the code calls (`std::uninitialized_copy_n`,
  `std::uninitialized_move_n`, `std::copy_n`, `std::move_backward`,
  `std::move`, `std::destroy_n`, `std::uninitialized_value_construct_n`)
  is modelled as a pure function on slot lists.  Move and copy transfer
  the same values in a value model, so `UninitCopyOrMove` and the two
  `constexpr` branches of `Erase` collapse to a single transfer function.
* Exception safety is modelled by parametrising element copy construction
  (and copy assignment) by a fallible function `α → Option α`; `none`
  means that element operation throws.  Each fallible operation returns
  the post-state of the container together with a flag telling whether an
  exception escaped.
-/

namespace AdvVector

/-- The two data members of `RawMemory<T>`: `buffer_` (abstract address,
`0` models `nullptr`) and `capacity_`.  Default member initializers give
`buffer_ = nullptr`, `capacity_ = 0`. -/
structure RawMemory where
  buffer : Nat
  capacity : Nat
deriving DecidableEq, Repr

/-- `RawMemory() = default;` — the empty state. -/
def RawMemory.mkDefault : RawMemory := { buffer := 0, capacity := 0 }

/-- `void Swap(RawMemory& other) noexcept` — exchanges the
`buffer_`/`capacity_` pairs; result is `(this after, other after)`. -/
def RawMemory.SwapOp (a b : RawMemory) : RawMemory × RawMemory :=
  ({ buffer := b.buffer, capacity := b.capacity },
   { buffer := a.buffer, capacity := a.capacity })

/-- `RawMemory(RawMemory&& other) noexcept { Swap(other); }` — the new
object is default-initialized, then swapped with `other`.  Result is
`(the constructed object, other after)`. -/
def RawMemory.moveCtor (other : RawMemory) : RawMemory × RawMemory :=
  RawMemory.mkDefault.SwapOp other

/-- `RawMemory& operator=(RawMemory&& rhs) noexcept { Swap(rhs); }` —
result is `(this after, rhs after)`. -/
def RawMemory.moveAssign (a rhs : RawMemory) : RawMemory × RawMemory :=
  a.SwapOp rhs

/-! ### Slot-list models of the standard algorithms used by `Vector<T>` -/

/-- Value transfer of `n` slots from `src + srcStart` into
`dst + dstStart`.  This models `std::uninitialized_copy_n`,
`std::uninitialized_move_n` and `std::copy_n` alike: in a value model all
three write the same values into the destination range and leave the rest
of the destination unchanged. -/
def transferN {α : Type} (src : List (Option α)) (srcStart n : Nat)
    (dst : List (Option α)) (dstStart : Nat) : List (Option α) :=
  (List.range dst.length).map (fun j =>
    if dstStart ≤ j ∧ j < dstStart + n then src.getD (srcStart + (j - dstStart)) none
    else dst.getD j none)

/-- `std::uninitialized_value_construct_n(l + start, n)` — constructs a
default value into each slot of `[start, start + n)`. -/
def valueConstructN {α : Type} [Inhabited α] (l : List (Option α)) (start n : Nat) :
    List (Option α) :=
  (List.range l.length).map (fun j =>
    if start ≤ j ∧ j < start + n then some default else l.getD j none)

/-- `std::destroy_n(l + start, n)` — destroys the objects in slots
`[start, start + n)`, leaving those slots uninitialized. -/
def destroyN {α : Type} (l : List (Option α)) (start n : Nat) : List (Option α) :=
  (List.range l.length).map (fun j =>
    if start ≤ j ∧ j < start + n then none else l.getD j none)

/-- `std::move_backward(l + first, l + last, l + (last + 1))` — shifts the
slot values of `[first, last)` one slot to the right, writing
`[first + 1, last + 1)`. -/
def moveBackwardOne {α : Type} (l : List (Option α)) (first last : Nat) :
    List (Option α) :=
  (List.range l.length).map (fun j =>
    if first < j ∧ j ≤ last then l.getD (j - 1) none else l.getD j none)

/-- `std::move(l + (first + 1), l + last, l + first)` (and equally
`std::copy_n(l + (first + 1), last - (first + 1), l + first)`) — shifts the
slot values of `[first + 1, last)` one slot to the left, writing
`[first, last - 1)`. -/
def moveForwardOne {α : Type} (l : List (Option α)) (first last : Nat) :
    List (Option α) :=
  (List.range l.length).map (fun j =>
    if first ≤ j ∧ j + 1 < last then l.getD (j + 1) none else l.getD j none)

/-! ### The `Vector<T>` model -/

/-- The two data members of `Vector<T>`: `data_` (the slot buffer; its
length is the capacity) and `size_`. -/
structure Vector (α : Type) where
  buf : List (Option α)
  size : Nat
deriving DecidableEq, Repr

/-- `size_t Capacity() const noexcept { return data_.Capacity(); }` -/
def Vector.Capacity {α : Type} (v : Vector α) : Nat := v.buf.length

/-- `Vector() = default;` — `data_` empty, `size_ = 0`. -/
def Vector.mkDefault {α : Type} : Vector α := { buf := [], size := 0 }

/-- `explicit Vector(size_t size)` — allocate `size` uninitialized slots,
then `std::uninitialized_value_construct_n(data_.GetAddress(), size)`. -/
def Vector.ofSize (α : Type) [Inhabited α] (size : Nat) : Vector α :=
  { buf := valueConstructN (List.replicate size (none : Option α)) 0 size
    size := size }

/-- `Vector(const Vector& other)` — allocate `other.size_` slots, then
`std::uninitialized_copy_n(other.data_.GetAddress(), other.Size(), data_.GetAddress())`. -/
def Vector.copyCtor {α : Type} (other : Vector α) : Vector α :=
  { buf := transferN other.buf 0 other.size (List.replicate other.size (none : Option α)) 0
    size := other.size }

/-- `void Swap(Vector& other) noexcept` — swaps `data_` and `size_`;
result is `(this after, other after)`. -/
def Vector.SwapOp {α : Type} (a b : Vector α) : Vector α × Vector α :=
  ({ buf := b.buf, size := b.size }, { buf := a.buf, size := a.size })

/-- `Vector(Vector&& other) noexcept { Swap(other); }` — the new object is
default-initialized, then swapped with `other`. -/
def Vector.moveCtor {α : Type} (other : Vector α) : Vector α × Vector α :=
  Vector.mkDefault.SwapOp other

/-- `Vector& operator=(Vector&& rhs) noexcept { Swap(rhs); }` — result is
`(this after, rhs after)`. -/
def Vector.moveAssign {α : Type} (a rhs : Vector α) : Vector α × Vector α :=
  a.SwapOp rhs

/-- `Vector& operator=(const Vector& rhs)` (for distinct objects), with
infallible element copies.  Branch 1 (`Capacity() >= rhs.size_`): reuse the
buffer: `std::copy_n(rhs.begin(), min(rhs.size_, size_), begin())`, then
destroy the trailing excess or copy-construct the missing tail, and set
`size_ = rhs.size_`.  Branch 2: `Vector rhs_copy(rhs); Swap(rhs_copy);`. -/
def Vector.copyAssign {α : Type} (a rhs : Vector α) : Vector α :=
  if rhs.size ≤ a.Capacity then
    let b1 := transferN rhs.buf 0 (min rhs.size a.size) a.buf 0
    if rhs.size < a.size then
      { buf := destroyN b1 rhs.size (a.size - rhs.size), size := rhs.size }
    else
      { buf := transferN rhs.buf a.size (rhs.size - a.size) b1 a.size, size := rhs.size }
  else
    (a.SwapOp (Vector.copyCtor rhs)).1

/-- `void Reserve(size_t new_capacity)` — no-op when
`new_capacity <= data_.Capacity()`; otherwise allocate `new_capacity`
uninitialized slots, relocate the first `size_` slots into them
(`UninitCopyOrMove`), destroy the old objects and adopt the new buffer. -/
def Vector.Reserve {α : Type} (v : Vector α) (new_capacity : Nat) : Vector α :=
  if new_capacity ≤ v.Capacity then v
  else
    { buf := transferN v.buf 0 v.size (List.replicate new_capacity (none : Option α)) 0
      size := v.size }

/-- `void Resize(size_t new_size)` — if `new_size > data_.Capacity()`:
`Reserve(new_size)` then value-construct slots `[size_, new_size)` and set
`size_ = new_size`.  Otherwise: destroy slots `[new_size, size_)` when
shrinking (`new_size < size_`), and in every case just set
`size_ = new_size` (the code constructs nothing when growing within
capacity). -/
def Vector.Resize {α : Type} [Inhabited α] (v : Vector α) (new_size : Nat) : Vector α :=
  if v.Capacity < new_size then
    { buf := valueConstructN (v.Reserve new_size).buf v.size (new_size - v.size)
      size := new_size }
  else if new_size < v.size then
    { buf := destroyN v.buf new_size (v.size - new_size), size := new_size }
  else
    { buf := v.buf, size := new_size }

/-- `iterator Emplace(const_iterator pos, Args&&... args)` with the
constructed element's value given as `x`; `pos` is
`std::distance(cbegin(), pos)`.  Returns the post-state together with the
index of the returned iterator (`place_emplace_indent`).
Growth branch (`data_.Capacity() < size_ + 1 || data_.Capacity() == size_`):
allocate `size_ == 0 ? 1 : size_ * 2` slots, relocate the prefix
`[0, pos)`, construct the element at `pos`, relocate the suffix
`[pos, size_)` to `[pos + 1, size_ + 1)`, adopt, `++size_`.
In-place branch, `pos < end()`: `T buff{args...}`, move-construct the last
element into slot `size_`, `std::move_backward(place, end() - 1, end())`,
move-assign `buff` into slot `pos`, `++size_`.
In-place branch, `pos == end()`: construct directly into slot `pos`,
`++size_`. -/
def Vector.Emplace {α : Type} (v : Vector α) (pos : Nat) (x : α) : Vector α × Nat :=
  if v.Capacity < v.size + 1 ∨ v.Capacity = v.size then
    let new_capacity := if v.size = 0 then 1 else v.size * 2
    let b1 := transferN v.buf 0 pos (List.replicate new_capacity (none : Option α)) 0
    let b2 := b1.set pos (some x)
    let b3 := transferN v.buf pos (v.size - pos) b2 (pos + 1)
    ({ buf := b3, size := v.size + 1 }, pos)
  else
    if pos < v.size then
      let b1 := v.buf.set v.size (v.buf.getD (v.size - 1) none)
      let b2 := moveBackwardOne b1 pos (v.size - 1)
      let b3 := b2.set pos (some x)
      ({ buf := b3, size := v.size + 1 }, pos)
    else
      ({ buf := v.buf.set pos (some x), size := v.size + 1 }, pos)

/-- `void PushBack(const T& value)` / `PushBack(T&&)` — both call
`EmplaceBack`, which is `Emplace(end(), ...)`, i.e. `pos = size_`. -/
def Vector.PushBack {α : Type} (v : Vector α) (x : α) : Vector α :=
  (v.Emplace v.size x).1

/-- `void PopBack() noexcept` — `assert(size_ > 0)`, destroy slot
`size_ - 1`, `--size_`. -/
def Vector.PopBack {α : Type} (v : Vector α) : Vector α :=
  { buf := v.buf.set (v.size - 1) none, size := v.size - 1 }

/-- `iterator Erase(const_iterator pos)` — shift slots `[pos + 1, size_)`
one slot left (by `std::move` or `std::copy_n` according to the
move-if-safe-else-copy policy; both transfer the same values), then
`PopBack()`; returns the post-state and the index of the returned
iterator. -/
def Vector.Erase {α : Type} (v : Vector α) (pos : Nat) : Vector α × Nat :=
  (Vector.PopBack { buf := moveForwardOne v.buf pos v.size, size := v.size }, pos)

/-- The documented representation invariant `0 <= size_ <= capacity`
(the lower bound is automatic for `Nat`). -/
def Vector.SizeInv {α : Type} (v : Vector α) : Prop := v.size ≤ v.Capacity

instance {α : Type} (v : Vector α) : Decidable v.SizeInv := by
  unfold Vector.SizeInv; infer_instance

/-- Repeated `PushBack` of a list of values, first element first. -/
def Vector.pushAll {α : Type} (v : Vector α) : List α → Vector α
  | [] => v
  | x :: xs => (v.PushBack x).pushAll xs

/-- The operations quantified over in the capacity-monotonicity claim. -/
inductive VecOp (α : Type) where
  | push : α → VecOp α
  | reserve : Nat → VecOp α
  | resize : Nat → VecOp α
deriving DecidableEq, Repr

/-- Apply one operation. -/
def Vector.applyOp {α : Type} [Inhabited α] (v : Vector α) : VecOp α → Vector α
  | VecOp.push x => v.PushBack x
  | VecOp.reserve n => v.Reserve n
  | VecOp.resize n => v.Resize n

/-- Apply a sequence of operations, leftmost first. -/
def Vector.applyOps {α : Type} [Inhabited α] (v : Vector α) : List (VecOp α) → Vector α
  | [] => v
  | op :: rest => (v.applyOp op).applyOps rest

/-! ### Fallible element copies, for the exception-safety claim -/

/-- Fallible `std::uninitialized_copy_n(src + srcStart, n, ...)`: copy
constructs the values of `n` consecutive source slots left to right with
the fallible copy `copy`; `none` means some element copy threw (the
partially constructed destination elements are destroyed again by the
algorithm, so only the successfully copied value list matters). -/
def copySlotsF {α : Type} (copy : α → Option α) (src : List (Option α)) :
    Nat → Nat → Option (List (Option α))
  | _, 0 => some []
  | srcStart, Nat.succ n =>
    match src.getD srcStart none with
    | none => (copySlotsF copy src (srcStart + 1) n).map (fun r => none :: r)
    | some x =>
      match copy x with
      | none => none
      | some y => (copySlotsF copy src (srcStart + 1) n).map (fun r => some y :: r)

/-- Fallible `std::copy_n(src + i, n, dst + i)` (element copy-assignment
`ca`; in `operator=` both ranges start at slot 0, so a single running
index `i` serves for source and destination): assignments are performed
left to right and stick; the flag tells whether an exception escaped
partway.  (Reading an unconstructed source slot is outside the code's
precondition; the model stops with the throw flag there.) -/
def copyAssignNF {α : Type} (ca : α → Option α) (src : List (Option α)) :
    Nat → Nat → List (Option α) → List (Option α) × Bool
  | _, 0, dst => (dst, false)
  | i, Nat.succ n, dst =>
    match src.getD i none with
    | none => (dst, true)
    | some x =>
      match ca x with
      | none => (dst, true)
      | some y => copyAssignNF ca src (i + 1) n (dst.set i (some y))

/-- `Vector(const Vector& other)` with fallible element copies: `none`
means an element copy threw while copy-constructing; the partially built
temporary is cleaned up and nothing is produced. -/
def Vector.copyCtorF {α : Type} (copy : α → Option α) (other : Vector α) :
    Option (Vector α) :=
  (copySlotsF copy other.buf 0 other.size).map (fun copied =>
    { buf := copied, size := other.size })

/-- `void Reserve(size_t new_capacity)` on the copy-relocation path
(`UninitCopyOrMove` selects `std::uninitialized_copy_n` because the
element's move may throw), with fallible element copies.  Returns the
post-state of the container and whether an exception escaped.  On a
throw, `std::uninitialized_copy_n` destroys the already-copied elements in
the new buffer, the new `RawMemory` frees its bytes, and `data_`/`size_`
were never touched. -/
def Vector.ReserveF {α : Type} (copy : α → Option α) (v : Vector α)
    (new_capacity : Nat) : Vector α × Bool :=
  if new_capacity ≤ v.Capacity then (v, false)
  else
    match copySlotsF copy v.buf 0 v.size with
    | none => (v, true)
    | some copied =>
      ({ buf := copied ++ List.replicate (new_capacity - v.size) (none : Option α)
         size := v.size }, false)

/-- `Vector& operator=(const Vector& rhs)` (distinct objects) with
fallible element copy-construction `copy` and copy-assignment `ca`.
Returns the post-state of the left-hand side and whether an exception
escaped.  In the reuse branch a throw leaves the partially assigned buffer
with the old `size_`; in the reallocating branch
(`Capacity() < rhs.size_`) a throw happens inside `Vector rhs_copy(rhs)`
before `Swap`, leaving the left-hand side untouched. -/
def Vector.copyAssignF {α : Type} (copy ca : α → Option α) (a rhs : Vector α) :
    Vector α × Bool :=
  if rhs.size ≤ a.Capacity then
    let r := copyAssignNF ca rhs.buf 0 (min rhs.size a.size) a.buf
    if r.2 then ({ buf := r.1, size := a.size }, true)
    else if rhs.size < a.size then
      ({ buf := destroyN r.1 rhs.size (a.size - rhs.size), size := rhs.size }, false)
    else
      match copySlotsF copy rhs.buf a.size (rhs.size - a.size) with
      | none => ({ buf := r.1, size := a.size }, true)
      | some tail =>
        ({ buf := r.1.take a.size ++ tail ++ r.1.drop (a.size + (rhs.size - a.size))
           size := rhs.size }, false)
  else
    match Vector.copyCtorF copy rhs with
    | none => (a, true)
    | some rhs_copy => ((a.SwapOp rhs_copy).1, false)

/-! ### Generic slot lemmas -/

theorem getD_oob {α : Type} (l : List (Option α)) (i : Nat) (h : l.length ≤ i) :
    l.getD i none = none := by
  rw [List.getD_eq_getElem?_getD, List.getElem?_eq_none h, Option.getD_none]

theorem getD_rangeMap {α : Type} (f : Nat → Option α) (n i : Nat) :
    ((List.range n).map f).getD i none = if i < n then f i else none := by
  rw [List.getD_eq_getElem?_getD, List.getElem?_map]
  by_cases h : i < n
  · rw [List.getElem?_range h, if_pos h]
    rfl
  · rw [List.getElem?_eq_none (by simpa using Nat.le_of_not_lt h), if_neg h]
    rfl

theorem getD_set_self {α : Type} (l : List (Option α)) (i : Nat) (a : Option α)
    (h : i < l.length) : (l.set i a).getD i none = a := by
  rw [List.getD_eq_getElem?_getD, List.getElem?_set_self h]
  rfl

theorem getD_set_ne {α : Type} (l : List (Option α)) (i j : Nat) (a : Option α)
    (h : i ≠ j) : (l.set i a).getD j none = l.getD j none := by
  rw [List.getD_eq_getElem?_getD, List.getElem?_set_ne h, List.getD_eq_getElem?_getD]

theorem getD_append_left {α : Type} (l m : List (Option α)) (i : Nat)
    (h : i < l.length) : (l ++ m).getD i none = l.getD i none := by
  rw [List.getD_eq_getElem?_getD, List.getElem?_append_left h, List.getD_eq_getElem?_getD]

theorem getD_append_right {α : Type} (l m : List (Option α)) (i : Nat)
    (h : l.length ≤ i) : (l ++ m).getD i none = m.getD (i - l.length) none := by
  rw [List.getD_eq_getElem?_getD, List.getElem?_append_right h, List.getD_eq_getElem?_getD]

theorem getD_replicate {α : Type} (n i : Nat) :
    (List.replicate n (none : Option α)).getD i none = none := by
  by_cases h : i < n
  · rw [List.getD_eq_getElem?_getD, List.getElem?_replicate_of_lt h]
    rfl
  · exact getD_oob _ _ (by simpa using Nat.le_of_not_lt h)

/-! ### Length and slot lemmas for the algorithm models -/

theorem length_transferN {α : Type} (src : List (Option α)) (s n : Nat)
    (dst : List (Option α)) (d : Nat) : (transferN src s n dst d).length = dst.length := by
  simp [transferN]

theorem length_valueConstructN {α : Type} [Inhabited α] (l : List (Option α))
    (start n : Nat) : (valueConstructN l start n).length = l.length := by
  simp [valueConstructN]

theorem length_destroyN {α : Type} (l : List (Option α)) (start n : Nat) :
    (destroyN l start n).length = l.length := by
  simp [destroyN]

theorem length_moveBackwardOne {α : Type} (l : List (Option α)) (first last : Nat) :
    (moveBackwardOne l first last).length = l.length := by
  simp [moveBackwardOne]

theorem length_moveForwardOne {α : Type} (l : List (Option α)) (first last : Nat) :
    (moveForwardOne l first last).length = l.length := by
  simp [moveForwardOne]

theorem transferN_getD {α : Type} (src : List (Option α)) (s n : Nat)
    (dst : List (Option α)) (d j : Nat) :
    (transferN src s n dst d).getD j none =
      if j < dst.length then
        (if d ≤ j ∧ j < d + n then src.getD (s + (j - d)) none else dst.getD j none)
      else none := by
  rw [transferN, getD_rangeMap]

theorem valueConstructN_getD {α : Type} [Inhabited α] (l : List (Option α))
    (start n j : Nat) :
    (valueConstructN l start n).getD j none =
      if j < l.length then
        (if start ≤ j ∧ j < start + n then some default else l.getD j none)
      else none := by
  rw [valueConstructN, getD_rangeMap]

theorem destroyN_getD {α : Type} (l : List (Option α)) (start n j : Nat) :
    (destroyN l start n).getD j none =
      if j < l.length then
        (if start ≤ j ∧ j < start + n then none else l.getD j none)
      else none := by
  rw [destroyN, getD_rangeMap]

theorem moveBackwardOne_getD {α : Type} (l : List (Option α)) (first last j : Nat) :
    (moveBackwardOne l first last).getD j none =
      if j < l.length then
        (if first < j ∧ j ≤ last then l.getD (j - 1) none else l.getD j none)
      else none := by
  rw [moveBackwardOne, getD_rangeMap]

theorem moveForwardOne_getD {α : Type} (l : List (Option α)) (first last j : Nat) :
    (moveForwardOne l first last).getD j none =
      if j < l.length then
        (if first ≤ j ∧ j + 1 < last then l.getD (j + 1) none else l.getD j none)
      else none := by
  rw [moveForwardOne, getD_rangeMap]

/-! ### Behaviour of Emplace -/

theorem Vector.emplace_spec {α : Type} (v : Vector α) (pos : Nat) (x : α)
    (hpos : pos ≤ v.size) :
    ((v.Emplace pos x).1.size = v.size + 1) ∧
    ((v.Emplace pos x).2 = pos) ∧
    ((v.Emplace pos x).1.buf.getD pos none = some x) ∧
    (∀ i, i < pos → (v.Emplace pos x).1.buf.getD i none = v.buf.getD i none) ∧
    (∀ i, pos ≤ i → i < v.size →
      (v.Emplace pos x).1.buf.getD (i + 1) none = v.buf.getD i none) := by
  by_cases hg : v.Capacity < v.size + 1 ∨ v.Capacity = v.size
  · -- growth branch
    have hsz : v.size < (if v.size = 0 then 1 else v.size * 2) := by
      split <;> omega
    simp only [Vector.Emplace, if_pos hg]
    set nc := if v.size = 0 then 1 else v.size * 2 with hnc
    set b1 := transferN v.buf 0 pos (List.replicate nc (none : Option α)) 0 with hb1
    set b2 := b1.set pos (some x) with hb2
    set b3 := transferN v.buf pos (v.size - pos) b2 (pos + 1) with hb3
    have hlb1 : b1.length = nc := by rw [hb1, length_transferN, List.length_replicate]
    have hlb2 : b2.length = nc := by rw [hb2, List.length_set, hlb1]
    refine ⟨trivial, trivial, ?_, ?_, ?_⟩
    · rw [hb3, transferN_getD, hlb2, if_pos (by omega), if_neg (by omega), hb2,
        getD_set_self _ _ _ (by omega)]
    · intro i hi
      rw [hb3, transferN_getD, hlb2, if_pos (by omega), if_neg (by omega), hb2,
        getD_set_ne _ _ _ _ (by omega), hb1, transferN_getD, List.length_replicate,
        if_pos (by omega), if_pos (by omega)]
      simp
    · intro i hi1 hi2
      rw [hb3, transferN_getD, hlb2, if_pos (by omega), if_pos (by omega)]
      congr 1
      omega
  · -- in-place branches
    have hg2 := hg
    push_neg at hg2
    obtain ⟨hc1, hc2⟩ := hg2
    have hcap : v.size + 1 ≤ v.buf.length := hc1
    by_cases hlt : pos < v.size
    · -- shift branch
      simp only [Vector.Emplace, if_neg hg, if_pos hlt]
      set b1 := v.buf.set v.size (v.buf.getD (v.size - 1) none) with hb1
      set b2 := moveBackwardOne b1 pos (v.size - 1) with hb2
      set b3 := b2.set pos (some x) with hb3
      have hlb1 : b1.length = v.buf.length := by rw [hb1, List.length_set]
      have hlb2 : b2.length = v.buf.length := by rw [hb2, length_moveBackwardOne, hlb1]
      refine ⟨trivial, trivial, ?_, ?_, ?_⟩
      · rw [hb3, getD_set_self _ _ _ (by omega)]
      · intro i hi
        rw [hb3, getD_set_ne _ _ _ _ (by omega), hb2, moveBackwardOne_getD, hlb1,
          if_pos (by omega), if_neg (by omega), hb1, getD_set_ne _ _ _ _ (by omega)]
      · intro i hi1 hi2
        rw [hb3, getD_set_ne _ _ _ _ (by omega), hb2, moveBackwardOne_getD, hlb1,
          if_pos (by omega)]
        by_cases hlast : i + 1 ≤ v.size - 1
        · rw [if_pos (by omega), hb1, getD_set_ne _ _ _ _ (by omega)]
          congr 1
        · rw [if_neg (by omega), hb1]
          have hie : i + 1 = v.size := by omega
          rw [hie, getD_set_self _ _ _ (by omega)]
          congr 1
          omega
    · -- construct-at-end branch
      have hpe : pos = v.size := Nat.le_antisymm hpos (Nat.le_of_not_lt hlt)
      simp only [Vector.Emplace, if_neg hg, if_neg hlt]
      refine ⟨trivial, trivial, ?_, ?_, ?_⟩
      · rw [getD_set_self _ _ _ (by omega)]
      · intro i hi
        rw [getD_set_ne _ _ _ _ (by omega)]
      · intro i hi1 hi2
        exfalso
        omega

/-! ### Behaviour of PushBack, pushAll and Erase -/

theorem Vector.pushback_spec {α : Type} (v : Vector α) (x : α) :
    ((v.PushBack x).size = v.size + 1) ∧
    (∀ i, i < v.size → (v.PushBack x).buf.getD i none = v.buf.getD i none) ∧
    ((v.PushBack x).buf.getD v.size none = some x) := by
  have h := Vector.emplace_spec v v.size x (Nat.le_refl v.size)
  exact ⟨h.1, h.2.2.2.1, h.2.2.1⟩

theorem Vector.pushAll_spec {α : Type} (xs : List α) :
    ∀ v : Vector α,
      ((v.pushAll xs).size = v.size + xs.length) ∧
      (∀ i, i < v.size → (v.pushAll xs).buf.getD i none = v.buf.getD i none) ∧
      (∀ j, j < xs.length → (v.pushAll xs).buf.getD (v.size + j) none = xs[j]?) := by
  induction xs with
  | nil =>
    intro v
    refine ⟨by simp [Vector.pushAll], fun i _ => rfl, fun j hj => absurd hj (by simp)⟩
  | cons x xs ih =>
    intro v
    have hpb := Vector.pushback_spec v x
    have hrec := ih (v.PushBack x)
    refine ⟨?_, ?_, ?_⟩
    · rw [Vector.pushAll, hrec.1, hpb.1]
      simp
      omega
    · intro i hi
      rw [Vector.pushAll, hrec.2.1 i (by omega), hpb.2.1 i hi]
    · intro j hj
      match j with
      | 0 =>
        have h1 := hrec.2.1 v.size (by omega)
        rw [Vector.pushAll, Nat.add_zero, h1, hpb.2.2, List.getElem?_cons_zero]
      | Nat.succ k =>
        have h1 := hrec.2.2 k (by simpa using hj)
        rw [Vector.pushAll]
        have heq : v.size + (k + 1) = (v.PushBack x).size + k := by rw [hpb.1]; omega
        rw [heq, h1, List.getElem?_cons_succ]

theorem Vector.erase_spec {α : Type} (v : Vector α) (pos : Nat)
    (hpos : pos < v.size) (hinv : v.SizeInv) :
    ((v.Erase pos).1.size + 1 = v.size) ∧
    ((v.Erase pos).2 = pos) ∧
    (∀ i, i < pos → (v.Erase pos).1.buf.getD i none = v.buf.getD i none) ∧
    (∀ i, pos ≤ i → i + 1 < v.size →
      (v.Erase pos).1.buf.getD i none = v.buf.getD (i + 1) none) ∧
    ((v.Erase pos).1.buf.getD (v.size - 1) none = none) := by
  have hcap : v.size ≤ v.buf.length := hinv
  simp only [Vector.Erase, Vector.PopBack]
  have hlen : (moveForwardOne v.buf pos v.size).length = v.buf.length :=
    length_moveForwardOne v.buf pos v.size
  refine ⟨by omega, trivial, ?_, ?_, ?_⟩
  · intro i hi
    rw [getD_set_ne _ _ _ _ (by omega), moveForwardOne_getD, if_pos (by omega),
      if_neg (by omega)]
  · intro i hi1 hi2
    rw [getD_set_ne _ _ _ _ (by omega), moveForwardOne_getD, if_pos (by omega),
      if_pos (by omega)]
  · rw [getD_set_self _ _ _ (by omega)]

/-! ### Capacity behaviour -/

theorem Vector.reserve_buf_length {α : Type} (v : Vector α) (n : Nat)
    (h : v.Capacity < n) : (v.Reserve n).buf.length = n := by
  rw [Vector.Reserve, if_neg (by omega)]
  simp [length_transferN]

theorem Vector.reserve_size {α : Type} (v : Vector α) (n : Nat) :
    (v.Reserve n).size = v.size := by
  rw [Vector.Reserve]
  split <;> rfl

theorem Vector.capacity_reserve_ge {α : Type} (v : Vector α) (n : Nat) :
    v.Capacity ≤ (v.Reserve n).Capacity := by
  rw [Vector.Reserve]
  split
  next => exact Nat.le_refl _
  next h =>
    simp only [Vector.Capacity] at h
    simp only [Vector.Capacity, length_transferN, List.length_replicate]
    omega

theorem Vector.capacity_resize_ge {α : Type} [Inhabited α] (v : Vector α) (n : Nat) :
    v.Capacity ≤ (v.Resize n).Capacity := by
  rw [Vector.Resize]
  split
  next h =>
    simp only [Vector.Capacity, length_valueConstructN]
    exact Vector.capacity_reserve_ge v n
  next h =>
    split
    next h2 =>
      simp only [Vector.Capacity, length_destroyN]
      exact Nat.le_refl _
    next h2 => exact Nat.le_refl _

theorem Vector.capacity_pushback_ge {α : Type} (v : Vector α) (x : α) :
    v.Capacity ≤ (v.PushBack x).Capacity := by
  by_cases hg : v.Capacity < v.size + 1 ∨ v.Capacity = v.size
  · have hg2 := hg
    simp only [Vector.Capacity] at hg2
    simp only [Vector.PushBack, Vector.Emplace, if_pos hg]
    simp only [Vector.Capacity, length_transferN, List.length_set, List.length_replicate]
    split <;> omega
  · simp only [Vector.PushBack, Vector.Emplace, if_neg hg, lt_self_iff_false, if_false]
    simp only [Vector.Capacity, List.length_set]
    exact Nat.le_refl _

theorem Vector.capacity_pushback_full {α : Type} (v : Vector α) (x : α)
    (h : v.size = v.Capacity) :
    (v.PushBack x).Capacity = max 1 (2 * v.Capacity) := by
  have h2 : v.size = v.buf.length := h
  simp only [Vector.PushBack, Vector.Emplace, if_pos (Or.inr h.symm)]
  simp only [Vector.Capacity, length_transferN, List.length_set, List.length_replicate]
  split <;> omega

theorem Vector.capacity_applyOps_ge {α : Type} [Inhabited α] (ops : List (VecOp α)) :
    ∀ v : Vector α, v.Capacity ≤ (v.applyOps ops).Capacity := by
  induction ops with
  | nil => intro v; exact Nat.le_refl _
  | cons op rest ih =>
    intro v
    refine Nat.le_trans ?_ (ih (v.applyOp op))
    cases op with
    | push x => exact Vector.capacity_pushback_ge v x
    | reserve n => exact Vector.capacity_reserve_ge v n
    | resize n => exact Vector.capacity_resize_ge v n

/-! ### Preservation of the size invariant -/

theorem Vector.sizeInv_mkDefault {α : Type} : (Vector.mkDefault : Vector α).SizeInv := by
  simp [Vector.SizeInv, Vector.mkDefault, Vector.Capacity]

theorem Vector.sizeInv_ofSize {α : Type} [Inhabited α] (n : Nat) :
    (Vector.ofSize α n).SizeInv := by
  simp [Vector.SizeInv, Vector.ofSize, Vector.Capacity, length_valueConstructN]

theorem Vector.sizeInv_copyCtor {α : Type} (v : Vector α) : (v.copyCtor).SizeInv := by
  simp [Vector.SizeInv, Vector.copyCtor, Vector.Capacity, length_transferN]

theorem Vector.sizeInv_swap {α : Type} (a b : Vector α)
    (ha : a.SizeInv) (hb : b.SizeInv) :
    (a.SwapOp b).1.SizeInv ∧ (a.SwapOp b).2.SizeInv := ⟨hb, ha⟩

theorem Vector.sizeInv_moveCtor {α : Type} (v : Vector α) (hv : v.SizeInv) :
    (v.moveCtor).1.SizeInv ∧ (v.moveCtor).2.SizeInv :=
  Vector.sizeInv_swap Vector.mkDefault v Vector.sizeInv_mkDefault hv

theorem Vector.sizeInv_moveAssign {α : Type} (a b : Vector α)
    (ha : a.SizeInv) (hb : b.SizeInv) :
    (a.moveAssign b).1.SizeInv ∧ (a.moveAssign b).2.SizeInv :=
  Vector.sizeInv_swap a b ha hb

theorem Vector.sizeInv_copyAssign {α : Type} (a b : Vector α) :
    (a.copyAssign b).SizeInv := by
  rw [Vector.copyAssign]
  split
  next h =>
    split
    next h2 =>
      simp only [Vector.SizeInv, Vector.Capacity, length_destroyN, length_transferN]
      exact h
    next h2 =>
      simp only [Vector.SizeInv, Vector.Capacity, length_transferN]
      exact h
  next h => exact Vector.sizeInv_copyCtor b

theorem Vector.sizeInv_reserve {α : Type} (v : Vector α) (n : Nat) (hv : v.SizeInv) :
    (v.Reserve n).SizeInv := by
  rw [Vector.Reserve]
  split
  next => exact hv
  next h =>
    simp only [Vector.SizeInv, Vector.Capacity, length_transferN, List.length_replicate]
    have : v.size ≤ v.Capacity := hv
    omega

theorem Vector.sizeInv_resize {α : Type} [Inhabited α] (v : Vector α) (n : Nat) :
    (v.Resize n).SizeInv := by
  rw [Vector.Resize]
  split
  next h =>
    simp only [Vector.SizeInv, Vector.Capacity, length_valueConstructN]
    rw [Vector.reserve_buf_length v n h]
  next h =>
    split
    next h2 =>
      simp only [Vector.SizeInv, Vector.Capacity, length_destroyN]
      have : ¬ v.Capacity < n := h
      simp only [Vector.Capacity] at this
      omega
    next h2 =>
      simp only [Vector.SizeInv, Vector.Capacity]
      have : ¬ v.Capacity < n := h
      simp only [Vector.Capacity] at this
      omega

theorem Vector.sizeInv_emplace {α : Type} (v : Vector α) (pos : Nat) (x : α) :
    (v.Emplace pos x).1.SizeInv := by
  rw [Vector.Emplace]
  by_cases hg : v.Capacity < v.size + 1 ∨ v.Capacity = v.size
  · rw [if_pos hg]
    simp only [Vector.SizeInv, Vector.Capacity, length_transferN, List.length_set,
      List.length_replicate]
    split <;> omega
  · rw [if_neg hg]
    have hcap : v.size + 1 ≤ v.Capacity := by
      rcases Nat.lt_or_ge v.Capacity (v.size + 1) with h | h
      · exact absurd (Or.inl h) hg
      · exact h
    split
    next h2 =>
      simp only [Vector.SizeInv, Vector.Capacity, List.length_set, length_moveBackwardOne]
      exact hcap
    next h2 =>
      simp only [Vector.SizeInv, Vector.Capacity, List.length_set]
      exact hcap

theorem Vector.sizeInv_pushback {α : Type} (v : Vector α) (x : α) :
    (v.PushBack x).SizeInv :=
  Vector.sizeInv_emplace v v.size x

theorem Vector.sizeInv_popback {α : Type} (v : Vector α) (hv : v.SizeInv) :
    (v.PopBack).SizeInv := by
  simp only [Vector.SizeInv, Vector.PopBack, Vector.Capacity, List.length_set]
  have : v.size ≤ v.Capacity := hv
  simp only [Vector.Capacity] at this
  omega

theorem Vector.sizeInv_erase {α : Type} (v : Vector α) (pos : Nat) (hv : v.SizeInv) :
    (v.Erase pos).1.SizeInv := by
  rw [Vector.Erase]
  refine Vector.sizeInv_popback _ ?_
  simp only [Vector.SizeInv, Vector.Capacity, length_moveForwardOne]
  exact hv

/-! ### The claims -/

/-- Claim C1 (code bug): the claim states that Resize(n) with
size < n <= capacity default-constructs the newly exposed trailing slots
[size, n) — for integers, a vector with content [99] and capacity 4 should
have content [99,0,0,0] after Resize(4).  The code's within-capacity
branch only sets size_ = n: evaluating Resize 4 on that vector yields
size 4 but leaves slot 1 unconstructed (none) instead of holding the
default value (some 0). -/
theorem claim_C1_resize_within_capacity :
    ((({ buf := [some 99, none, none, none], size := 1 } : Vector Nat).Resize 4).size = 4) ∧
    ((({ buf := [some 99, none, none, none], size := 1 } : Vector Nat).Resize 4).buf.getD 1 none
      = none) := by
  constructor <;> decide

/-- Claim C2, counterexample: move-assignment of RawMemory does not reset
the source to the empty state — assigning from (address 7, capacity 3)
into a destination holding (address 5, capacity 2) leaves the source with
the destination's former pair (5, 2), not (null, 0). -/
theorem claim_C2_counterexample :
    ¬ ((RawMemory.moveAssign { buffer := 5, capacity := 2 }
        { buffer := 7, capacity := 3 }).2 = RawMemory.mkDefault) := by
  decide

/-- Claim C2, amended: move-construction gives the destination the
source's address/capacity pair and resets the source to the empty state;
move-assignment gives the destination the source's pair but swaps — the
source receives the destination's former pair (which is the empty state
only when the destination was empty). -/
theorem claim_C2_move_transfer (a rhs : RawMemory) :
    ((RawMemory.moveCtor rhs).1 = rhs ∧
     (RawMemory.moveCtor rhs).2 = RawMemory.mkDefault) ∧
    ((a.moveAssign rhs).1 = rhs ∧ (a.moveAssign rhs).2 = a) :=
  ⟨⟨rfl, rfl⟩, ⟨rfl, rfl⟩⟩

/-- Claim C3: pushing a finite sequence of values onto an initially empty
vector yields size equal to the number of PushBack calls and, at each
index i, the i-th pushed value. -/
theorem claim_C3_pushback_sequence {α : Type} (xs : List α) :
    (((Vector.mkDefault : Vector α).pushAll xs).size = xs.length) ∧
    (∀ i, i < xs.length →
      ((Vector.mkDefault : Vector α).pushAll xs).buf.getD i none = xs[i]?) := by
  have h := Vector.pushAll_spec xs (Vector.mkDefault : Vector α)
  refine ⟨by simpa [Vector.mkDefault] using h.1, ?_⟩
  intro i hi
  have h2 := h.2.2 i hi
  simpa [Vector.mkDefault] using h2

/-- Witness for C3 at the concrete sequence [4, 9, 2]. -/
theorem claim_C3_witness :
    (((Vector.mkDefault : Vector Nat).pushAll [4, 9, 2]).size = 3) ∧
    (((Vector.mkDefault : Vector Nat).pushAll [4, 9, 2]).buf.getD 1 none = some 9) :=
  ⟨(claim_C3_pushback_sequence [4, 9, 2]).1, by
    have h := (claim_C3_pushback_sequence (α := Nat) [4, 9, 2]).2 1 (by decide)
    simpa using h⟩

/-- Claim C4: capacity never decreases across any sequence of PushBack,
Reserve and Resize calls, and a PushBack on a full vector
(size = capacity) grows capacity to max 1 (2 * old capacity). -/
theorem claim_C4_capacity_growth {α : Type} [Inhabited α] (v : Vector α) (x : α) :
    (∀ ops : List (VecOp α), v.Capacity ≤ (v.applyOps ops).Capacity) ∧
    (v.size = v.Capacity → (v.PushBack x).Capacity = max 1 (2 * v.Capacity)) :=
  ⟨fun ops => Vector.capacity_applyOps_ge ops v,
   fun h => Vector.capacity_pushback_full v x h⟩

/-- Witness for C4 at a concrete full vector. -/
theorem claim_C4_witness :
    (({ buf := [some 3], size := 1 } : Vector Nat).Capacity ≤
      (({ buf := [some 3], size := 1 } : Vector Nat).applyOps
        [VecOp.push 7, VecOp.reserve 5, VecOp.resize 2]).Capacity) ∧
    ((({ buf := [some 3], size := 1 } : Vector Nat).PushBack 7).Capacity =
      max 1 (2 * ({ buf := [some 3], size := 1 } : Vector Nat).Capacity)) :=
  ⟨(claim_C4_capacity_growth { buf := [some 3], size := 1 } 7).1
      [VecOp.push 7, VecOp.reserve 5, VecOp.resize 2],
   (claim_C4_capacity_growth { buf := [some 3], size := 1 } 7).2 (by decide)⟩

/-- Claim C5: Reserve(n) with n <= Capacity() is a no-op — the state
(capacity, size and every slot) is exactly the state before the call; the
code returns before touching the storage, so element addresses are those
of the untouched buffer. -/
theorem claim_C5_reserve_within_capacity {α : Type} (v : Vector α) (n : Nat)
    (h : n ≤ v.Capacity) : v.Reserve n = v := by
  rw [Vector.Reserve, if_pos h]

/-- Witness for C5 at a concrete vector. -/
theorem claim_C5_witness :
    ({ buf := [some 1, none], size := 1 } : Vector Nat).Reserve 2 =
      { buf := [some 1, none], size := 1 } :=
  claim_C5_reserve_within_capacity { buf := [some 1, none], size := 1 } 2 (by decide)

/-- Claim C6: if an element copy throws during the reallocating branch of
copy-assignment (capacity < rhs.size) or during Reserve's copy-relocation,
the target container is exactly as before the call (strong exception
safety). -/
theorem claim_C6_strong_exception_safety {α : Type} (copy ca : α → Option α)
    (a rhs v : Vector α) (n : Nat) (hcap : a.Capacity < rhs.size) :
    ((Vector.copyAssignF copy ca a rhs).2 = true →
      (Vector.copyAssignF copy ca a rhs).1 = a) ∧
    ((Vector.ReserveF copy v n).2 = true → (Vector.ReserveF copy v n).1 = v) := by
  constructor
  · intro ht
    rw [Vector.copyAssignF, if_neg (by omega)] at ht ⊢
    cases hc : Vector.copyCtorF copy rhs with
    | none => rfl
    | some w =>
      rw [hc] at ht
      exact absurd ht (by simp)
  · intro ht
    rw [Vector.ReserveF] at ht ⊢
    by_cases hn : n ≤ v.Capacity
    · rw [if_pos hn] at ht
      exact absurd ht (by simp)
    · rw [if_neg hn] at ht ⊢
      cases hc : copySlotsF copy v.buf 0 v.size with
      | none => rfl
      | some copied =>
        rw [hc] at ht
        exact absurd ht (by simp)

/-- Witness for C6: a copy that always throws, a reallocating assignment
and a growing Reserve; both leave their target unchanged. -/
theorem claim_C6_witness :
    ((Vector.copyAssignF (fun _ => (none : Option Nat)) (fun y => some y)
        Vector.mkDefault { buf := [some 1], size := 1 }).1 = Vector.mkDefault) ∧
    ((Vector.ReserveF (fun _ => (none : Option Nat))
        ({ buf := [some 2], size := 1 } : Vector Nat) 3).1
      = { buf := [some 2], size := 1 }) := by
  have h := claim_C6_strong_exception_safety (fun _ => (none : Option Nat))
    (fun y => some y) Vector.mkDefault { buf := [some 1], size := 1 }
    { buf := [some 2], size := 1 } 3 (by decide)
  exact ⟨h.1 (by decide), h.2 (by decide)⟩

/-- Claim C7: Erase(position) on a live element removes exactly that
element — earlier elements keep their slots, every later element moves one
slot left, the duplicated last slot is destroyed, and size decreases by
exactly one. -/
theorem claim_C7_erase {α : Type} (v : Vector α) (pos : Nat)
    (hpos : pos < v.size) (hinv : v.SizeInv) :
    ((v.Erase pos).1.size + 1 = v.size) ∧
    (∀ i, i < pos → (v.Erase pos).1.buf.getD i none = v.buf.getD i none) ∧
    (∀ i, pos ≤ i → i + 1 < v.size →
      (v.Erase pos).1.buf.getD i none = v.buf.getD (i + 1) none) ∧
    ((v.Erase pos).1.buf.getD (v.size - 1) none = none) := by
  have h := Vector.erase_spec v pos hpos hinv
  exact ⟨h.1, h.2.2.1, h.2.2.2.1, h.2.2.2.2⟩

/-- Witness for C7: erasing the first element of [1, 2, 3]. -/
theorem claim_C7_witness :
    ((({ buf := [some 1, some 2, some 3], size := 3 } : Vector Nat).Erase 0).1.size + 1 = 3) ∧
    ((({ buf := [some 1, some 2, some 3], size := 3 } : Vector Nat).Erase 0).1.buf.getD 0 none
      = some 2) ∧
    ((({ buf := [some 1, some 2, some 3], size := 3 } : Vector Nat).Erase 0).1.buf.getD 2 none
      = none) := by
  have h := claim_C7_erase ({ buf := [some 1, some 2, some 3], size := 3 } : Vector Nat) 0
    (by decide) (by decide)
  exact ⟨h.1, by simpa using h.2.2.1 0 (by decide) (by decide), by simpa using h.2.2.2⟩

/-- Claim C8: a successful Emplace at a position in [begin, end] increases
size by exactly one, places the new element at that position, keeps every
earlier element in its slot and moves every element from the position on
one slot right, preserving relative order. -/
theorem claim_C8_emplace {α : Type} (v : Vector α) (pos : Nat) (x : α)
    (hpos : pos ≤ v.size) :
    ((v.Emplace pos x).1.size = v.size + 1) ∧
    ((v.Emplace pos x).1.buf.getD pos none = some x) ∧
    (∀ i, i < pos → (v.Emplace pos x).1.buf.getD i none = v.buf.getD i none) ∧
    (∀ i, pos ≤ i → i < v.size →
      (v.Emplace pos x).1.buf.getD (i + 1) none = v.buf.getD i none) := by
  have h := Vector.emplace_spec v pos x hpos
  exact ⟨h.1, h.2.2.1, h.2.2.2.1, h.2.2.2.2⟩

/-- Witness for C8: inserting 99 at position 1 of [10, 20] (spare capacity
present). -/
theorem claim_C8_witness :
    ((({ buf := [some 10, some 20, none], size := 2 } : Vector Nat).Emplace 1 99).1.size = 3) ∧
    ((({ buf := [some 10, some 20, none], size := 2 } : Vector Nat).Emplace 1 99).1.buf.getD 1 none
      = some 99) ∧
    ((({ buf := [some 10, some 20, none], size := 2 } : Vector Nat).Emplace 1 99).1.buf.getD 0 none
      = some 10) ∧
    ((({ buf := [some 10, some 20, none], size := 2 } : Vector Nat).Emplace 1 99).1.buf.getD 2 none
      = some 20) := by
  have h := claim_C8_emplace ({ buf := [some 10, some 20, none], size := 2 } : Vector Nat) 1 99
    (by decide)
  refine ⟨h.1, h.2.1, by simpa using h.2.2.1 0 (by decide), by simpa using h.2.2.2 1 (by decide) (by decide)⟩

/-- Claim C9: the invariant 0 <= size <= capacity is established by every
constructor and preserved by every public operation. -/
theorem claim_C9_size_invariant {α : Type} [Inhabited α] (a b v : Vector α)
    (n pos : Nat) (x : α) (ha : a.SizeInv) (hb : b.SizeInv) (hv : v.SizeInv) :
    (Vector.mkDefault : Vector α).SizeInv ∧
    (Vector.ofSize α n).SizeInv ∧
    (v.copyCtor).SizeInv ∧
    (v.moveCtor).1.SizeInv ∧ (v.moveCtor).2.SizeInv ∧
    (a.copyAssign b).SizeInv ∧
    (a.moveAssign b).1.SizeInv ∧ (a.moveAssign b).2.SizeInv ∧
    (a.SwapOp b).1.SizeInv ∧ (a.SwapOp b).2.SizeInv ∧
    (v.Reserve n).SizeInv ∧
    (v.Resize n).SizeInv ∧
    (v.Emplace pos x).1.SizeInv ∧
    (v.PushBack x).SizeInv ∧
    (v.Erase pos).1.SizeInv ∧
    (v.PopBack).SizeInv :=
  ⟨Vector.sizeInv_mkDefault, Vector.sizeInv_ofSize n, Vector.sizeInv_copyCtor v,
   (Vector.sizeInv_moveCtor v hv).1, (Vector.sizeInv_moveCtor v hv).2,
   Vector.sizeInv_copyAssign a b,
   (Vector.sizeInv_moveAssign a b ha hb).1, (Vector.sizeInv_moveAssign a b ha hb).2,
   (Vector.sizeInv_swap a b ha hb).1, (Vector.sizeInv_swap a b ha hb).2,
   Vector.sizeInv_reserve v n hv, Vector.sizeInv_resize v n,
   Vector.sizeInv_emplace v pos x, Vector.sizeInv_pushback v x,
   Vector.sizeInv_erase v pos hv, Vector.sizeInv_popback v hv⟩

/-- Witness for C9 at concrete vectors. -/
theorem claim_C9_witness :
    (Vector.mkDefault : Vector Nat).SizeInv ∧
    (Vector.ofSize Nat 2).SizeInv ∧
    (({ buf := [some 1], size := 1 } : Vector Nat).copyCtor).SizeInv ∧
    (({ buf := [some 1], size := 1 } : Vector Nat).moveCtor).1.SizeInv ∧
    (({ buf := [some 1], size := 1 } : Vector Nat).moveCtor).2.SizeInv ∧
    (({ buf := [some 4, none], size := 1 } : Vector Nat).copyAssign
      { buf := [some 1], size := 1 }).SizeInv ∧
    (({ buf := [some 4, none], size := 1 } : Vector Nat).moveAssign
      { buf := [some 1], size := 1 }).1.SizeInv ∧
    (({ buf := [some 4, none], size := 1 } : Vector Nat).moveAssign
      { buf := [some 1], size := 1 }).2.SizeInv ∧
    (({ buf := [some 4, none], size := 1 } : Vector Nat).SwapOp
      { buf := [some 1], size := 1 }).1.SizeInv ∧
    (({ buf := [some 4, none], size := 1 } : Vector Nat).SwapOp
      { buf := [some 1], size := 1 }).2.SizeInv ∧
    (({ buf := [some 1], size := 1 } : Vector Nat).Reserve 2).SizeInv ∧
    (({ buf := [some 1], size := 1 } : Vector Nat).Resize 2).SizeInv ∧
    (({ buf := [some 1], size := 1 } : Vector Nat).Emplace 0 5).1.SizeInv ∧
    (({ buf := [some 1], size := 1 } : Vector Nat).PushBack 5).SizeInv ∧
    (({ buf := [some 1], size := 1 } : Vector Nat).Erase 0).1.SizeInv ∧
    (({ buf := [some 1], size := 1 } : Vector Nat).PopBack).SizeInv :=
  claim_C9_size_invariant { buf := [some 4, none], size := 1 }
    { buf := [some 1], size := 1 } { buf := [some 1], size := 1 } 2 0 5
    (by decide) (by decide) (by decide)

/-- Claim C10: Emplace returns an iterator referring to the newly inserted
element — the index it returns is the distance of the given position from
begin, and in the post-call storage that slot holds the constructed
value. -/
theorem claim_C10_emplace_iterator {α : Type} (v : Vector α) (pos : Nat) (x : α)
    (hpos : pos ≤ v.size) :
    ((v.Emplace pos x).2 = pos) ∧
    ((v.Emplace pos x).1.buf.getD ((v.Emplace pos x).2) none = some x) := by
  have h := Vector.emplace_spec v pos x hpos
  exact ⟨h.2.1, by rw [h.2.1]; exact h.2.2.1⟩

/-- Witness for C10: emplacing at position 0 of a one-element full vector
(growth path). -/
theorem claim_C10_witness :
    ((({ buf := [some 7], size := 1 } : Vector Nat).Emplace 0 42).2 = 0) ∧
    ((({ buf := [some 7], size := 1 } : Vector Nat).Emplace 0 42).1.buf.getD
      ((({ buf := [some 7], size := 1 } : Vector Nat).Emplace 0 42).2) none = some 42) :=
  claim_C10_emplace_iterator ({ buf := [some 7], size := 1 } : Vector Nat) 0 42 (by decide)

end AdvVector
